import Mathlib

/-!
Shallow embedding of the redbird reverse-proxy routing engine
(`src/index.js`): routing table, registration, resolver chain,
route normalization and caching, longest-path matching and
round-robin target selection.

JS strings are modelled as Lean `String`s (operated on through
`String.toList`), JS objects with optional own-properties as
structures with `Option` fields (a `none` field models an absent
own-property, which is falsy), thrown exceptions as `Except`
errors, and the mutable module state (routing table, LRU route
cache) as explicitly threaded values.
-/

namespace Redbird

/-- `startsWith(input, str)` from `src/index.js` (lines 461-464):
`input.slice(0, str.length) === str && (input.length === str.length || input[str.length] === '/')`. -/
def jsStartsWith (input str : String) : Bool :=
  input.toList.take str.toList.length == str.toList &&
    (input.toList.length == str.toList.length || input.toList[str.toList.length]? == some '/')

/-- Plain string start test (`List`-level model of `String.startsWith`,
kept executable down to the kernel). -/
def strStartsWith (s p : String) : Bool :=
  s.toList.take p.toList.length == p.toList

/-- `setHttp(link)` from `src/index.js`: prepends `http://` when the string does
not already start with `http://` or `https://` (the regex `/^http[s]?\:\/\//`). -/
def setHttp (link : String) : String :=
  if strStartsWith link "http://" || strStartsWith link "https://" then link
  else "http://" ++ link

/-- Characters accepted inside a URI by the validity check below. -/
def isUriChar (c : Char) : Bool :=
  c.isAlphanum || "-._~:/?#@!$&()*+,;=%".toList.contains c

/-- Models the external `valid-url` check `isHttpUri(url) || isHttpsUri(url)`
used by `prepareUrl`: the string must carry an http/https scheme, have a
non-empty authority, and contain only URI characters (in particular no
spaces, so `"http://not a uri"` is rejected). -/
def isValidHttpUri (s : String) : Bool :=
  (strStartsWith s "http://" || strStartsWith s "https://") &&
    (let rest := if strStartsWith s "https://" then s.toList.drop 8 else s.toList.drop 7
     let auth := rest.takeWhile (fun c => c ≠ '/')
     !auth.isEmpty && rest.all isUriChar)

/-- Result of node's legacy `url.parse` on a validated http(s) URI, restricted
to the fields the routing engine reads: `protocol`, lower-cased `hostname`
without the port, the `port` when present, and the `pathname` (`""` models
node's `null` pathname, which is falsy like the real value). -/
structure ParsedUrl where
  protocol : String
  hostname : String
  port : Option String
  pathname : String
deriving DecidableEq, Repr

/-- Serialized form of a parsed URL; models the `href` property used by
`unregister` to compare targets (`url.href === target.href`). -/
def ParsedUrl.hrefStr (u : ParsedUrl) : String :=
  u.protocol ++ "//" ++ u.hostname ++
    (match u.port with | some p => ":" ++ p | none => "") ++ u.pathname

/-- Models `require('url').parse` on a string already validated by
`isValidHttpUri`: split scheme, authority and path; the hostname is the
authority up to the first `:`, lower-cased; the port is what follows it. -/
def parseValidated (s : String) : ParsedUrl :=
  let pr : String × List Char :=
    if strStartsWith s "https://" then ("https:", s.toList.drop 8)
    else ("http:", s.toList.drop 7)
  let auth := pr.2.takeWhile (fun c => c ≠ '/')
  let path := pr.2.drop auth.length
  let hostPart := auth.takeWhile (fun c => c ≠ ':')
  let portPart := auth.drop hostPart.length
  { protocol := pr.1
    hostname := (hostPart.map Char.toLower).asString
    port := if portPart.isEmpty then none else some (portPart.drop 1).asString
    pathname := path.asString }

/-- Errors thrown synchronously by the registration API:
`Error('Cannot register a new route with unspecified src or target')` and
`Error('uri is not a valid http uri ' + url)`. -/
inductive RegErr where
  | invalidArgument
  | invalidUri (s : String)
deriving DecidableEq, Repr

instance {ε α : Type _} [DecidableEq ε] [DecidableEq α] : DecidableEq (Except ε α) :=
  fun a b =>
    match a, b with
    | .ok x, .ok y => decidable_of_iff (x = y) (by simp)
    | .error x, .error y => decidable_of_iff (x = y) (by simp)
    | .ok _, .error _ => isFalse (by simp)
    | .error _, .ok _ => isFalse (by simp)

/-- `prepareUrl(url)` from `src/index.js` (lines 466-478) for string input:
apply `setHttp`, throw `InvalidURI` unless the result is a valid http(s)
URI, then parse it. -/
def prepareUrl (s : String) : Except RegErr ParsedUrl :=
  let s := setHttp s
  if isValidHttpUri s then .ok (parseValidated s) else .error (.invalidUri s)

/-- Route options passed to `register` / carried on a structured route
descriptor (`opts.useTargetHostHeader`). -/
structure BuildOpts where
  useTargetHostHeader : Bool := false
deriving DecidableEq, Repr

/-- A backend target: the parsed URL decorated with the
`useTargetHostHeader` flag, as produced by `ReverseProxy.buildTarget`. -/
structure Target extends ParsedUrl where
  useTargetHostHeader : Bool
deriving DecidableEq, Repr

/-- `ReverseProxy.buildTarget(target, opts)` (lines 177-182):
`opts = opts || {}; target = prepareUrl(target);
target.useTargetHostHeader = opts.useTargetHostHeader === true`. -/
def buildTarget (target : String) (opts : Option BuildOpts) : Except RegErr Target :=
  match prepareUrl target with
  | .error e => .error e
  | .ok u => .ok { toParsedUrl := u, useTargetHostHeader := (opts.getD {}).useTargetHostHeader }

/-- The `url` own-property of a structured route descriptor:
`_.isArray(route.url) ? route.url : [route.url]`. -/
inductive UrlField where
  | one (s : String)
  | many (ls : List String)
deriving DecidableEq, Repr

/-- A JS route-shaped object. Routing-table entries have `path`, `rr` and
`urls` set; descriptors returned by resolvers may instead carry `url`
(plus optional `path`/`opts`); cached normalized routes additionally carry
`isResolved = true`. A `none` field models an absent own-property. -/
structure JsRoute where
  path : Option String := none
  urls : Option (List Target) := none
  url : Option UrlField := none
  opts : Option BuildOpts := none
  rr : Nat := 0
  isResolved : Bool := false
deriving DecidableEq, Repr

instance : Inhabited JsRoute := ⟨{}⟩

/-- The routing table `this.routing`: a JS object keyed by lowercase
hostname, each value the array of routes for that host. -/
abbrev RoutingTable := List (String × List JsRoute)

/-- `routing[host]`: JS property read (keys are unique). -/
def tableGet : RoutingTable → String → Option (List JsRoute)
  | [], _ => none
  | (k, v) :: t, h => if k = h then some v else tableGet t h

/-- `routing[host] = rs`: JS property write. -/
def tableSet : RoutingTable → String → List JsRoute → RoutingTable
  | [], h, rs => [(h, rs)]
  | (k, v) :: t, h, rs => if k = h then (h, rs) :: t else (k, v) :: tableSet t h rs

/-- JS falsiness of an optional string argument: absent or `''`. -/
def jsFalsy (s : Option String) : Bool := s.getD "" == ""

/-- `src.pathname || '/'`: node's `null`/empty pathname defaults to `/`. -/
def pathnameOr (u : ParsedUrl) : String := if u.pathname = "" then "/" else u.pathname

/-- Replace the first route whose `path` equals `p` (the object
`_.find(host, { path: pathname })` aliases). -/
def updateFirstRoute (p : String) (f : JsRoute → JsRoute) : List JsRoute → List JsRoute
  | [] => []
  | r :: rest => if r.path = some p then f r :: rest else r :: updateFirstRoute p f rest

/-- The ordering underlying `_.sortBy(host, _route => -_route.path.length)`:
a stable ascending sort by `-path.length`, i.e. descending path length.
`lodash`'s stable sort is modelled by `List.insertionSort`, which is also
stable, and stable sorts of a total preorder agree. -/
def routeLenRel (a b : JsRoute) : Prop :=
  (b.path.getD "").length ≤ (a.path.getD "").length

instance : DecidableRel routeLenRel := fun _ _ =>
  inferInstanceAs (Decidable (_ ≤ _))

instance : IsTotal JsRoute routeLenRel :=
  ⟨fun a b => Nat.le_total (b.path.getD "").length (a.path.getD "").length⟩

instance : IsTrans JsRoute routeLenRel :=
  ⟨fun _ _ _ h1 h2 => Nat.le_trans h2 h1⟩

/-- `ReverseProxy.prototype.register(src, target, opts)` (lines 193-224):
throw `InvalidArgument` when `src` or `target` is falsy; `prepareUrl(src)`
and `buildTarget(target, opts)` (either may throw `InvalidURI`), all before
the table is touched; then append the target to the route for
`(hostname, pathname)`, creating the route and re-sorting the host's list
by descending path length when the path is new. -/
def register (src target : Option String) (opts : Option BuildOpts) (t : RoutingTable) :
    Except RegErr RoutingTable :=
  if jsFalsy src || jsFalsy target then .error .invalidArgument
  else
    match prepareUrl (src.getD "") with
    | .error e => .error e
    | .ok su =>
      match buildTarget (target.getD "") opts with
      | .error e => .error e
      | .ok tgt =>
        let host := (tableGet t su.hostname).getD []
        let pathname := pathnameOr su
        match host.find? (fun r => r.path = some pathname) with
        | some _ =>
          -- route.urls.push(target) on the existing route
          .ok (tableSet t su.hostname
            (updateFirstRoute pathname
              (fun r => { r with urls := some ((r.urls.getD []) ++ [tgt]) }) host))
        | none =>
          -- host.push({path, rr: 0, urls: []}); re-sort; route.urls.push(target)
          let newRoute : JsRoute := { path := some pathname, rr := 0, urls := some [] }
          let sorted := List.insertionSort routeLenRel (host ++ [newRoute])
          .ok (tableSet t su.hostname
            (updateFirstRoute pathname
              (fun r => { r with urls := some ((r.urls.getD []) ++ [tgt]) }) sorted))

/-- Index of the first route whose `path` equals `pathname`
(the `for`/`break` scan in `unregister`). -/
def findRouteIdx (p : String) : List JsRoute → Option Nat
  | [] => none
  | r :: rest =>
    if r.path = some p then some 0 else (findRouteIdx p rest).map (· + 1)

/-- `ReverseProxy.prototype.unregister(src, target)` (lines 226-261):
no-op on falsy `src`; parse `src`; locate the first route for
`(hostname, pathname)`; when found, remove the targets whose `href`
equals the parsed `target`'s (all of them when `target` is falsy), and
splice the route out of the host's list when no target remains. -/
def unregister (src target : Option String) (t : RoutingTable) :
    Except RegErr RoutingTable :=
  if jsFalsy src then .ok t
  else
    match prepareUrl (src.getD "") with
    | .error e => .error e
    | .ok su =>
      let routes := (tableGet t su.hostname).getD []
      let pathname := pathnameOr su
      match findRouteIdx pathname routes with
      | none => .ok t
      | some i =>
        let route := (routes.get? i).getD default
        let urlsRes : Except RegErr (List Target) :=
          if jsFalsy target then .ok []
          else
            match prepareUrl (target.getD "") with
            | .error e => .error e
            | .ok tu => .ok ((route.urls.getD []).filter (fun u => ¬u.hrefStr = tu.hrefStr))
        match urlsRes with
        | .error e => .error e
        | .ok urls =>
          let routes' :=
            if urls.isEmpty then routes.eraseIdx i
            else routes.set i { route with urls := some urls }
          .ok (tableSet t su.hostname routes')

/-- The match test of the built-in resolver:
`route.path === '/' || startsWith(url, route.path)`. -/
def routeMatches (url : String) (r : JsRoute) : Bool :=
  r.path == some "/" || jsStartsWith url (r.path.getD "")

/-- `ReverseProxy.prototype._defaultResolver(host, url)` (lines 263-288):
empty host resolves to nothing; `url = url || '/'`; scan the host's
routes (kept longest-path-first) and return the first whose path is `/`
or a boundary-respecting start of the request url. -/
def defaultResolver (t : RoutingTable) (host url : String) : Option JsRoute :=
  if host = "" then none
  else
    let url := if url = "" then "/" else url
    match tableGet t host with
    | none => none
    | some routes => routes.find? (routeMatches url)

/-- One entry of `this.resolvers`: the resolver function, identified by
reference (`id`), with its (possibly absent) ad hoc `priority` property. -/
structure ResolverEntry where
  id : Nat
  priority : Int
deriving DecidableEq, Repr

/-- A resolver passed to `addResolver`, before the
`hasOwnProperty('priority')` defaulting. -/
structure ResolverInput where
  id : Nat
  priority : Option Int := none
deriving DecidableEq, Repr

/-- `if (!resolveObj.hasOwnProperty('priority')) resolveObj.priority = 0`. -/
def normalizeResolver (r : ResolverInput) : ResolverEntry :=
  { id := r.id, priority := r.priority.getD 0 }

/-- `_.uniq`: keep the first occurrence of each resolver reference. -/
def uniqById (l : List ResolverEntry) : List ResolverEntry :=
  l.foldl (fun acc a => if acc.any (fun b => b.id = a.id) then acc else acc ++ [a]) []

/-- The ordering underlying `_.sortBy(resolvers, ['priority'])`: a stable
ascending sort by priority (modelled by the stable `List.insertionSort`). -/
def prioRel (a b : ResolverEntry) : Prop := a.priority ≤ b.priority

instance : DecidableRel prioRel := fun _ _ =>
  inferInstanceAs (Decidable (_ ≤ _))

instance : IsTotal ResolverEntry prioRel :=
  ⟨fun a b => Int.le_total a.priority b.priority⟩

instance : IsTrans ResolverEntry prioRel :=
  ⟨fun _ _ _ h1 h2 => Int.le_trans h1 h2⟩

/-- `ReverseProxy.prototype.addResolver(resolver)` (lines 148-167): default
each new resolver's priority to 0, push it, then
`_.sortBy(_.uniq(resolvers), ['priority']).reverse()`. -/
def addResolver (chain : List ResolverEntry) (new : List ResolverInput) :
    List ResolverEntry :=
  (List.insertionSort prioRel (uniqById (chain ++ new.map normalizeResolver))).reverse

/-- The entry for `_defaultResolver`, installed at construction with
priority 0 (`this.resolvers = [this._defaultResolver]`); its reference is
modelled as id 0. -/
def defaultResolverEntry : ResolverEntry := { id := 0, priority := 0 }

/-- A JS value returned by a resolver, as classified by `buildRoute`:
a string, a route-shaped object, or anything else (`null` result). -/
inductive RouteVal where
  | str (s : String)
  | obj (o : JsRoute)
  | other
deriving DecidableEq, Repr

/-- Key of the module-level `routeCache`: the string itself for string
descriptors, `hash(route)` for objects. `object-hash` is modelled as
injective (collision-free), keyed by the object value. -/
inductive CacheKey where
  | strKey (s : String)
  | objHash (o : JsRoute)
deriving DecidableEq, Repr

/-- The mutable heap of normalized route objects plus the LRU
`routeCache` mapping keys to heap references, most recently used first.
A reference (heap index) models JS object identity: `buildRoute`
returning the same reference is returning the same object. -/
structure Store where
  heap : List JsRoute := []
  cache : List (CacheKey × Nat) := []
deriving DecidableEq, Repr

/-- `new LRUCache({ max: 5000 })`. -/
def routeCacheMax : Nat := 5000

/-- `routeCache.get(cacheKey)` (lookup part). -/
def cacheGet (st : Store) (k : CacheKey) : Option Nat :=
  (st.cache.find? (fun e => e.1 = k)).map (·.2)

/-- The recency refresh a successful `routeCache.get` performs:
move the entry to the most-recently-used position. -/
def cacheTouch (st : Store) (k : CacheKey) : Store :=
  match st.cache.find? (fun e => e.1 = k) with
  | none => st
  | some e => { st with cache := e :: st.cache.filter (fun e' => ¬e'.1 = k) }

/-- `routeCache.set(cacheKey, routeObject)`: insert as most recently used
and evict the least recently used entry beyond the capacity. -/
def cacheSet (st : Store) (k : CacheKey) (ref : Nat) : Store :=
  let entries := (k, ref) :: st.cache.filter (fun e => ¬e.1 = k)
  { st with cache := if routeCacheMax < entries.length then entries.dropLast else entries }

/-- What `buildRoute` hands back: either the argument object itself
(native route, passed through untouched) or a reference to a cached
normalized route object. -/
inductive BRoute where
  | native (o : JsRoute)
  | cached (ref : Nat)
deriving DecidableEq, Repr

/-- Dereference a built route against the store. -/
def BRoute.look (st : Store) : BRoute → JsRoute
  | .native o => o
  | .cached r => (st.heap.get? r).getD default

/-- `route.path || '/'` when building a structured descriptor. -/
def pathOr (p : Option String) : String :=
  if p.getD "" = "" then "/" else p.getD ""

/-- `ReverseProxy.buildRoute(route)` (lines 326-359): non-string
non-objects give `null`; an object with own-properties `urls` and `path`
is returned unchanged; otherwise look the descriptor up in `routeCache`
by its key and on a miss build `{rr: 0, isResolved: true, urls, path}`
(targets via `buildTarget`, which may throw `InvalidURI`) and cache it. -/
def buildRoute (v : RouteVal) (st : Store) : Except RegErr (Option BRoute) × Store :=
  match v with
  | .other => (.ok none, st)
  | .obj o =>
    if o.urls.isSome && o.path.isSome then (.ok (some (.native o)), st)
    else
      let key := CacheKey.objHash o
      match cacheGet st key with
      | some ref => (.ok (some (.cached ref)), cacheTouch st key)
      | none =>
        match o.url with
        | none => (.ok none, st)
        | some uf =>
          let urlList := match uf with | .one s => [s] | .many ls => ls
          match urlList.mapM (fun u => buildTarget u o.opts) with
          | .error e => (.error e, st)
          | .ok tgts =>
            let routeObject : JsRoute :=
              { rr := 0, isResolved := true, urls := some tgts, path := some (pathOr o.path) }
            let ref := st.heap.length
            (.ok (some (.cached ref)),
              cacheSet { st with heap := st.heap ++ [routeObject] } key ref)
  | .str s =>
    let key := CacheKey.strKey s
    match cacheGet st key with
    | some ref => (.ok (some (.cached ref)), cacheTouch st key)
    | none =>
      match buildTarget s none with
      | .error e => (.error e, st)
      | .ok tgt =>
        let routeObject : JsRoute :=
          { rr := 0, isResolved := true, urls := some [tgt], path := some "/" }
        let ref := st.heap.length
        (.ok (some (.cached ref)),
          cacheSet { st with heap := st.heap ++ [routeObject] } key ref)

/-- The cache key `buildRoute` uses for a non-native descriptor
(`none` for values it never caches). -/
def cacheKeyOf : RouteVal → Option CacheKey
  | .str s => some (.strKey s)
  | .obj o => if o.urls.isSome && o.path.isSome then none else some (.objHash o)
  | .other => none

/-- The acceptance test of `resolve` (line 314):
`!route.isResolved || route.path === '/' || startsWith(url, route.path)`. -/
def acceptRoute (url : String) (r : JsRoute) : Bool :=
  !r.isResolved || r.path == some "/" || jsStartsWith url (r.path.getD "")

/-- The result loop inside `resolve`'s `then` callback (lines 308-318):
skip falsy results and results `buildRoute` nullifies, return the first
built route that passes the acceptance test; an exception thrown by
`buildRoute` rejects the chain and is swallowed by the trailing `catch`,
yielding no route. -/
def resolveIter (url : String) : List (Option RouteVal) → Store → Option BRoute × Store
  | [], st => (none, st)
  | none :: rest, st => resolveIter url rest st
  | some v :: rest, st =>
    match buildRoute v st with
    | (.error _, st') => (none, st')
    | (.ok none, st') => resolveIter url rest st'
    | (.ok (some br), st') =>
      if acceptRoute url (br.look st') then (some br, st')
      else resolveIter url rest st'

/-- Whether a settled resolver promise is a rejection. -/
def isErrResult : Except Unit (Option RouteVal) → Bool
  | .error _ => true
  | .ok _ => false

/-- The value of a fulfilled resolver promise (rejections carry none). -/
def okResult : Except Unit (Option RouteVal) → Option RouteVal
  | .ok v => v
  | .error _ => none

/-- `ReverseProxy.prototype.resolve` after the fan-out (lines 307-322):
`Promise.all` rejects as soon as any resolver's promise rejects, so the
result loop never runs and the `catch` handler turns the failure into no
route (and no cache activity); otherwise the results are scanned in
resolver-chain order. Each list element is one resolver's outcome:
an error, a falsy result, or a route value. -/
def resolveResults (url : String) (results : List (Except Unit (Option RouteVal)))
    (st : Store) : Option BRoute × Store :=
  if results.any isErrResult then (none, st)
  else resolveIter url (results.map okResult) st

/-- The round-robin step of `_getTarget` (lines 384-387):
`j = route.rr; route.rr = (j + 1) % urls.length; target = urls[j]`.
On an empty target list the JS expressions denote `NaN`/`undefined`;
the model returns no target and leaves the cursor unchanged. -/
def selectTarget (r : JsRoute) : Option Target × JsRoute :=
  let urls := r.urls.getD []
  if urls.isEmpty then (none, r)
  else (urls.get? r.rr, { r with rr := (r.rr + 1) % urls.length })

/-- One target selection against the routing-table route for `(h, p)`:
`_getTarget`'s round-robin step applied to the route object stored in the
table (in JS the update mutates that shared object in place). -/
def tableSelect (t : RoutingTable) (h p : String) : Option Target × RoutingTable :=
  match tableGet t h with
  | none => (none, t)
  | some routes =>
    match findRouteIdx p routes with
    | none => (none, t)
    | some i =>
      let r := (routes.get? i).getD default
      let sel := selectTarget r
      (sel.1, tableSet t h (routes.set i sel.2))

/-- One target selection against a cached route object: the round-robin
update is visible through the heap reference, hence to every later
resolution that obtains the same cached object. -/
def storeSelect (st : Store) (ref : Nat) : Option Target × Store :=
  let r := (st.heap.get? ref).getD default
  let sel := selectTarget r
  (sel.1, { st with heap := st.heap.set ref sel.2 })

/-- The empty route cache/heap state. -/
def emptyStore : Store := {}

/-- The route object stored for `(h, p)`, if any. -/
def routeAt (t : RoutingTable) (h p : String) : Option JsRoute :=
  ((tableGet t h).getD []).find? (fun r => r.path = some p)

/-- A successful registration, for building concrete scenario tables. -/
def tryReg (src target : String) (t : RoutingTable) : RoutingTable :=
  ((register (some src) (some target) none t).toOption).getD t

/-- The table of spec §8, scenario 2: `/` → `localhost:9000` and
`/api` → `localhost:9001`, both on `example.com`. -/
def demoTable : RoutingTable :=
  tryReg "example.com/api" "localhost:9001" (tryReg "example.com" "localhost:9000" [])

/-- A host's route list sorted by descending path length. -/
def hostPairwise (rs : List JsRoute) : Prop := rs.Pairwise routeLenRel

/-- Every host list of the table is sorted by descending path length. -/
def tableSorted (t : RoutingTable) : Prop :=
  ∀ h rs, tableGet t h = some rs → hostPairwise rs

theorem tableGet_tableSet (t : RoutingTable) (h h' : String) (rs : List JsRoute) :
    tableGet (tableSet t h rs) h' = if h' = h then some rs else tableGet t h' := by
  induction t with
  | nil =>
    by_cases e : h = h'
    · simp [tableSet, tableGet, e]
    · simp [tableSet, tableGet, e, Ne.symm e]
  | cons kv t ih =>
    obtain ⟨k, v⟩ := kv
    by_cases e : k = h
    · subst e
      by_cases e2 : h' = k <;> simp [tableSet, tableGet, e2, Eq.comm]
    · by_cases e2 : k = h' <;> by_cases e3 : h' = h <;>
        simp_all [tableSet, tableGet]

theorem mem_updateFirstRoute {p : String} {f : JsRoute → JsRoute} {l : List JsRoute}
    {b : JsRoute} (hb : b ∈ updateFirstRoute p f l) : b ∈ l ∨ ∃ a ∈ l, b = f a := by
  induction l with
  | nil => simp [updateFirstRoute] at hb
  | cons r rest ih =>
    by_cases e : r.path = some p
    · simp [updateFirstRoute, e] at hb
      rcases hb with hb | hb
      · exact Or.inr ⟨r, by simp, hb⟩
      · exact Or.inl (by simp [hb])
    · simp [updateFirstRoute, e] at hb
      rcases hb with hb | hb
      · exact Or.inl (by simp [hb])
      · rcases ih hb with h1 | ⟨a, ha, hfa⟩
        · exact Or.inl (by simp [h1])
        · exact Or.inr ⟨a, by simp [ha], hfa⟩

theorem routeLenRel_of_path_eq {a b b' : JsRoute} (hb : b'.path = b.path)
    (hab : routeLenRel a b) : routeLenRel a b' := by
  simpa [routeLenRel, hb] using hab

theorem updateFirstRoute_pairwise (p : String) (f : JsRoute → JsRoute)
    (hf : ∀ r, (f r).path = r.path) {l : List JsRoute} (hl : hostPairwise l) :
    hostPairwise (updateFirstRoute p f l) := by
  induction l with
  | nil => simpa [updateFirstRoute] using hl
  | cons r rest ih =>
    rcases List.pairwise_cons.mp hl with ⟨hr, hrest⟩
    by_cases e : r.path = some p
    · simp only [updateFirstRoute, e, if_pos]
      refine List.pairwise_cons.mpr ⟨?_, hrest⟩
      intro b hb
      simpa [routeLenRel, hf r] using hr b hb
    · simp only [updateFirstRoute, e, if_neg, ite_false]
      refine List.pairwise_cons.mpr ⟨?_, ih hrest⟩
      intro b hb
      rcases mem_updateFirstRoute hb with h1 | ⟨a, ha, hfa⟩
      · exact hr b h1
      · exact hfa ▸ routeLenRel_of_path_eq (hf a) (hr a ha)

theorem register_sorted {t t' : RoutingTable} {src target : Option String}
    {opts : Option BuildOpts} (ht : tableSorted t)
    (hreg : register src target opts t = .ok t') : tableSorted t' := by
  unfold register at hreg
  split at hreg
  · exact absurd hreg (by simp)
  · split at hreg
    · exact absurd hreg (by simp)
    · rename_i su hsu
      split at hreg
      · exact absurd hreg (by simp)
      · rename_i tgt htgt
        have hhost : hostPairwise ((tableGet t su.hostname).getD []) := by
          cases hg : tableGet t su.hostname with
          | none => simp [hostPairwise]
          | some rs => simpa using ht _ _ hg
        simp only [] at hreg
        split at hreg <;>
          simp only [Except.ok.injEq] at hreg <;> subst hreg <;>
          intro h rs hg <;> rw [tableGet_tableSet] at hg <;> split at hg
        · rcases hg with ⟨⟩
          refine updateFirstRoute_pairwise _ _ ?_ hhost
          intro r
          rfl
        · exact ht _ _ hg
        · rcases hg with ⟨⟩
          refine updateFirstRoute_pairwise _ _ ?_ ?_
          · intro r
            rfl
          · exact List.sorted_insertionSort routeLenRel _
        · exact ht _ _ hg

theorem find_first_longest {url : String} {rs : List JsRoute} {r : JsRoute}
    (hs : hostPairwise rs) (hf : rs.find? (routeMatches url) = some r) :
    ∀ r' ∈ rs, routeMatches url r' = true →
      (r'.path.getD "").length ≤ (r.path.getD "").length := by
  induction rs with
  | nil => simp at hf
  | cons a rest ih =>
    rcases List.pairwise_cons.mp hs with ⟨ha, hrest⟩
    by_cases e : routeMatches url a = true
    · rw [List.find?_cons_of_pos _ e] at hf
      simp only [Option.some.injEq] at hf
      subst hf
      intro r' hr' hm
      rcases List.mem_cons.mp hr' with h1 | h1
      · subst h1; exact le_refl _
      · exact ha r' h1
    · rw [List.find?_cons_of_neg _ (by simpa using e)] at hf
      intro r' hr' hm
      rcases List.mem_cons.mp hr' with h1 | h1
      · subst h1; exact absurd hm e
      · exact ih hrest hf r' h1 hm

/-- C2: every `register` keeps each host's route list sorted by descending
path length; the default resolver returns the first entry of that list
that matches, which is therefore a matching route of maximal path length;
and concretely, with routes for `/` and `/api` registered on
`example.com`, resolving `/api/x` returns the `/api` route
(target `localhost:9001`), not the `/` route. -/
theorem claim2_longest_path_route_wins :
    (∀ (t t' : RoutingTable) (src target : Option String) (opts : Option BuildOpts),
        tableSorted t → register src target opts t = .ok t' → tableSorted t') ∧
    (∀ (t : RoutingTable) (h url : String) (rs : List JsRoute) (r : JsRoute),
        tableGet t h = some rs → tableSorted t → defaultResolver t h url = some r →
        ∀ r' ∈ rs, routeMatches (if url = "" then "/" else url) r' = true →
          (r'.path.getD "").length ≤ (r.path.getD "").length) ∧
    (∀ (t : RoutingTable) (h url : String), h ≠ "" →
        defaultResolver t h url =
          ((tableGet t h).getD []).find? (routeMatches (if url = "" then "/" else url))) ∧
    ((defaultResolver demoTable "example.com" "/api/x").map (fun r => r.path) =
        some (some "/api") ∧
     (defaultResolver demoTable "example.com" "/api/x").map
        (fun r => (r.urls.getD []).map (fun tg => tg.hrefStr)) =
        some ["http://localhost:9001"]) := by
  refine ⟨fun t t' src target opts ht hr => register_sorted ht hr, ?_, ?_, by decide, by decide⟩
  · intro t h url rs r hg ht hd r' hr' hm
    unfold defaultResolver at hd
    by_cases he : h = ""
    · simp [he] at hd
    · rw [if_neg he] at hd
      simp only [] at hd
      rw [hg] at hd
      exact find_first_longest (ht _ _ hg) hd r' hr' hm
  · intro t h url hne
    unfold defaultResolver
    rw [if_neg hne]
    cases hg : tableGet t h <;> simp [hg, List.find?]

/-- Witness for C2 at a concrete input: the default resolver's answer on the
two-route demo table is the first match in the host's sorted list. -/
theorem claim2_witness :
    defaultResolver demoTable "example.com" "/api/x" =
      List.find? (routeMatches (if "/api/x" = "" then "/" else "/api/x"))
        ((tableGet demoTable "example.com").getD []) :=
  claim2_longest_path_route_wins.2.2.1 demoTable "example.com" "/api/x" (by decide)

/-- C3: the prefix match `startsWith(u, p)` respects path-segment
boundaries: it holds exactly when `p`'s characters start `u` and either
`u` equals `p` or the character of `u` right after `p` is `/`; in
particular `/api` matches `/api` and `/api/x` but not `/application`. -/
theorem claim3_path_boundary_matching :
    (∀ u p : String, jsStartsWith u p = true ↔
      ((∃ t, u.toList = p.toList ++ t) ∧
        (u = p ∨ u.toList[p.toList.length]? = some '/'))) ∧
    jsStartsWith "/api" "/api" = true ∧ jsStartsWith "/api/x" "/api" = true ∧
    jsStartsWith "/application" "/api" = false := by
  refine ⟨?_, by decide, by decide, by decide⟩
  intro u p
  simp only [jsStartsWith, Bool.and_eq_true, Bool.or_eq_true, beq_iff_eq]
  constructor
  · rintro ⟨h1, h2⟩
    refine ⟨⟨u.toList.drop p.toList.length, ?_⟩, ?_⟩
    · conv_lhs => rw [← List.take_append_drop p.toList.length u.toList]
      rw [h1]
    · rcases h2 with hlen | hc
      · left
        have hu : u.toList = p.toList := by
          rw [← h1, ← hlen, List.take_length]
        exact String.ext hu
      · right; exact hc
  · rintro ⟨⟨t, ht⟩, h2⟩
    constructor
    · rw [ht, List.take_left]
    · rcases h2 with he | hc
      · left; rw [he]
      · right; exact hc


theorem selectTarget_path (r : JsRoute) : (selectTarget r).2.path = r.path := by
  unfold selectTarget
  simp only []
  split <;> rfl

theorem findRouteIdx_get {p : String} :
    ∀ {rs : List JsRoute} {i : Nat}, findRouteIdx p rs = some i →
      ∃ r₀, rs.get? i = some r₀ ∧ r₀.path = some p := by
  intro rs
  induction rs with
  | nil => intro i h; simp [findRouteIdx] at h
  | cons r rest ih =>
    intro i h
    by_cases e : r.path = some p
    · simp [findRouteIdx, e] at h
      subst h
      exact ⟨r, by simp, e⟩
    · simp only [findRouteIdx, e, if_neg, ite_false, Option.map_eq_some'] at h
      obtain ⟨j, hj, rfl⟩ := h
      obtain ⟨r₀, hg, hp⟩ := ih hj
      exact ⟨r₀, by simpa using hg, hp⟩

theorem find?_set_of_path_ne {p' : String} :
    ∀ (rs : List JsRoute) (i : Nat) (r₀ r' : JsRoute),
      rs.get? i = some r₀ → r₀.path ≠ some p' → r'.path ≠ some p' →
      (rs.set i r').find? (fun x => x.path = some p') =
        rs.find? (fun x => x.path = some p') := by
  intro rs
  induction rs with
  | nil => intro i r₀ r' hg; simp at hg
  | cons a rest ih =>
    intro i r₀ r' hg h0 h'
    cases i with
    | zero =>
      simp only [List.get?] at hg
      rcases hg with ⟨⟩
      simp [List.set, List.find?, h0, h']
    | succ j =>
      simp only [List.get?] at hg
      by_cases e : a.path = some p'
      · simp [List.set, List.find?, e]
      · simp [List.set, List.find?, e]
        exact ih j r₀ r' hg h0 h'

/-- Concrete targets for round-robin scenarios. -/
def tgtA : Target :=
  { protocol := "http:", hostname := "a", port := none, pathname := "", useTargetHostHeader := false }

def tgtB : Target :=
  { protocol := "http:", hostname := "b", port := none, pathname := "", useTargetHostHeader := false }

def tgtC : Target :=
  { protocol := "http:", hostname := "c", port := none, pathname := "", useTargetHostHeader := false }

/-- A table with a two-target route on host `h` and a one-target route on
host `k`, for the interleaved round-robin scenario. -/
def rrTable : RoutingTable :=
  [("h", [{ path := some "/", urls := some [tgtA, tgtB], rr := 0 }]),
   ("k", [{ path := some "/", urls := some [tgtC], rr := 0 }])]

/-- C4: with `n = us.length` targets and cursor `j < n`, the round-robin
step returns `us[j]` and sets the cursor to `(j + 1) % n`; a selection
against one table route leaves every other `(host, path)` route
untouched; and successive selections on a `[A, B]` route yield
`A, B, A, B, …` even when selections on another route are interleaved. -/
theorem claim4_round_robin_selection :
    (∀ (r : JsRoute) (us : List Target) (j : Nat) (hj : j < us.length),
        r.urls = some us → r.rr = j →
        selectTarget r = (some (us.get ⟨j, hj⟩), { r with rr := (j + 1) % us.length })) ∧
    (∀ (t : RoutingTable) (h p h' p' : String), ¬(h' = h ∧ p' = p) →
        routeAt (tableSelect t h p).2 h' p' = routeAt t h' p') ∧
    ((tableSelect rrTable "h" "/").1 = some tgtA ∧
     (tableSelect (tableSelect rrTable "h" "/").2 "k" "/").1 = some tgtC ∧
     (tableSelect (tableSelect (tableSelect rrTable "h" "/").2 "k" "/").2 "h" "/").1 =
        some tgtB ∧
     (tableSelect (tableSelect (tableSelect (tableSelect rrTable "h" "/").2 "k" "/").2
        "h" "/").2 "k" "/").1 = some tgtC ∧
     (tableSelect (tableSelect (tableSelect (tableSelect (tableSelect rrTable "h" "/").2
        "k" "/").2 "h" "/").2 "k" "/").2 "h" "/").1 = some tgtA) := by
  refine ⟨?_, ?_, by decide, by decide, by decide, by decide, by decide⟩
  · intro r us j hj hu hr
    have hne : us.isEmpty = false := by
      cases us with
      | nil => simp at hj
      | cons x xs => rfl
    unfold selectTarget
    rw [hu]
    simp only [Option.getD_some, hne, Bool.false_eq_true, if_false, hr]
    rw [List.get?_eq_get hj]
  · intro t h p h' p' hne
    unfold tableSelect
    cases hg : tableGet t h with
    | none => rfl
    | some routes =>
      dsimp only
      cases hf : findRouteIdx p routes with
      | none => rfl
      | some i =>
        obtain ⟨r₀, hg0, hp0⟩ := findRouteIdx_get hf
        simp only [routeAt]
        rw [tableGet_tableSet]
        by_cases e : h' = h
        · have hpp : ¬p' = p := fun hp' => hne ⟨e, hp'⟩
          rw [if_pos e, e, hg]
          simp only [Option.getD_some]
          refine find?_set_of_path_ne routes i r₀ _ hg0 ?_ ?_
          · rw [hp0]; simpa using fun hh => hpp hh.symm
          · rw [hg0]
            simp only [Option.getD_some]
            rw [selectTarget_path, hp0]
            simpa using fun hh => hpp hh.symm
        · rw [if_neg e]

/-- Witness for C4 at a concrete input: a route with targets `[A, B]` and
cursor 1 yields `B` and wraps the cursor back to 0. -/
theorem claim4_witness :
    selectTarget { path := some "/", urls := some [tgtA, tgtB], rr := 1 } =
      (some ([tgtA, tgtB].get ⟨1, by decide⟩),
        { path := some "/", urls := some [tgtA, tgtB], rr := (1 + 1) % 2 }) :=
  claim4_round_robin_selection.1 _ [tgtA, tgtB] 1 (by decide) rfl rfl


/-- C6: `register` with a falsy `src` or `target` fails with
`InvalidArgument`; with a malformed `src` or `target` URI it fails with the
`InvalidURI` error of the failing parse; `prepareUrl` rejects exactly the
strings the validator refuses, naming the normalized URI; all of these
errors occur before the routing table is touched (the error result carries
no table), so a resolve against the caller's unchanged table — concretely
the empty table after the failing `register("not a uri", "localhost:9000")`
— still finds no route. -/
theorem claim6_register_errors_before_mutation :
    (∀ (src target : Option String) (opts : Option BuildOpts) (t : RoutingTable),
        (jsFalsy src || jsFalsy target) = true →
        register src target opts t = .error .invalidArgument) ∧
    (∀ (src target : Option String) (opts : Option BuildOpts) (t : RoutingTable) (e : RegErr),
        (jsFalsy src || jsFalsy target) = false →
        prepareUrl (src.getD "") = .error e →
        register src target opts t = .error e) ∧
    (∀ (src target : Option String) (opts : Option BuildOpts) (t : RoutingTable)
        (su : ParsedUrl) (e : RegErr),
        (jsFalsy src || jsFalsy target) = false →
        prepareUrl (src.getD "") = .ok su →
        buildTarget (target.getD "") opts = .error e →
        register src target opts t = .error e) ∧
    (∀ s : String, isValidHttpUri (setHttp s) = false →
        prepareUrl s = .error (.invalidUri (setHttp s))) ∧
    (register (some "not a uri") (some "localhost:9000") none [] =
        .error (.invalidUri "http://not a uri") ∧
     (∀ h url : String, defaultResolver [] h url = none)) := by
  refine ⟨?_, ?_, ?_, ?_, by decide, ?_⟩
  · intro src target opts t hft
    unfold register
    rw [hft]
    rfl
  · intro src target opts t e hft hsrc
    unfold register
    rw [hft]
    simp only [Bool.false_eq_true, if_false, hsrc]
  · intro src target opts t su e hft hsrc htgt
    unfold register
    rw [hft]
    simp only [Bool.false_eq_true, if_false, hsrc, htgt]
  · intro s hv
    unfold prepareUrl
    simp only [hv, Bool.false_eq_true, if_false]
  · intro h url
    unfold defaultResolver
    split
    · rfl
    · simp [tableGet]

/-- Witness for C6 at a concrete input: a missing `src` is rejected with
`InvalidArgument`. -/
theorem claim6_witness :
    register none (some "localhost:9000") none [] = .error .invalidArgument :=
  claim6_register_errors_before_mutation.1 none (some "localhost:9000") none [] (by decide)


/-- A table whose `/` route on `example.com` has the two targets
`localhost:9000` and `localhost:9001`. -/
def abTable : RoutingTable :=
  tryReg "example.com" "localhost:9001" (tryReg "example.com" "localhost:9000" [])

/-- C7: `unregister` with a target removes from the located `(host, path)`
route exactly the targets whose normalized `href` equals the parsed
target's, deleting the route from the host's list when none remains;
without a target it deletes the route outright; and it is a no-op (not an
error) when no route matches. Concretely, on a `/` route with targets
`[9000, 9001]`, unregistering `localhost:9000` leaves `[9001]`,
unregistering without a target deletes the route, and unregistering an
unknown host returns the table unchanged. -/
theorem claim7_unregister_semantics :
    (∀ (t : RoutingTable) (src target : Option String) (su : ParsedUrl),
        jsFalsy src = false → prepareUrl (src.getD "") = .ok su →
        findRouteIdx (pathnameOr su) ((tableGet t su.hostname).getD []) = none →
        unregister src target t = .ok t) ∧
    (∀ (t : RoutingTable) (src target : Option String) (su tu : ParsedUrl)
        (i : Nat) (route : JsRoute),
        jsFalsy src = false → prepareUrl (src.getD "") = .ok su →
        findRouteIdx (pathnameOr su) ((tableGet t su.hostname).getD []) = some i →
        ((tableGet t su.hostname).getD []).get? i = some route →
        jsFalsy target = false → prepareUrl (target.getD "") = .ok tu →
        (let filtered := (route.urls.getD []).filter (fun u => ¬u.hrefStr = tu.hrefStr)
         unregister src target t =
          .ok (tableSet t su.hostname
            (if filtered.isEmpty then ((tableGet t su.hostname).getD []).eraseIdx i
             else ((tableGet t su.hostname).getD []).set i
                    { route with urls := some filtered })))) ∧
    (∀ (t : RoutingTable) (src : Option String) (su : ParsedUrl) (i : Nat),
        jsFalsy src = false → prepareUrl (src.getD "") = .ok su →
        findRouteIdx (pathnameOr su) ((tableGet t su.hostname).getD []) = some i →
        unregister src none t =
          .ok (tableSet t su.hostname (((tableGet t su.hostname).getD []).eraseIdx i))) ∧
    ((unregister (some "example.com") (some "localhost:9000") abTable).toOption.map
        (fun t' => (routeAt t' "example.com" "/").map
          (fun r => (r.urls.getD []).map (fun u => u.hrefStr))) =
        some (some ["http://localhost:9001"]) ∧
     unregister (some "example.com") none abTable = .ok [("example.com", [])] ∧
     (unregister (some "example.com") none abTable).toOption.map
        (fun t' => routeAt t' "example.com" "/") = some none ∧
     unregister (some "nosuchhost.com") none abTable = .ok abTable) := by
  refine ⟨?_, ?_, ?_, by decide, by decide, by decide, by decide⟩
  · intro t src target su hfs hsu hfind
    unfold unregister
    simp only [hfs, Bool.false_eq_true, if_false, hsu, hfind]
  · intro t src target su tu i route hfs hsu hfind hget hft htu
    unfold unregister
    simp only [hfs, Bool.false_eq_true, if_false, hsu, hfind, hget, Option.getD_some,
      hft, htu]
  · intro t src su i hfs hsu hfind
    unfold unregister
    simp only [hfs, Bool.false_eq_true, if_false, hsu, hfind]
    have : jsFalsy none = true := rfl
    simp only [this, if_true]
    simp [List.isEmpty]

/-- Witness for C7 at a concrete input: unregistering from the empty table
is a no-op. -/
theorem claim7_witness :
    unregister (some "example.com") none [] = .ok [] :=
  claim7_unregister_semantics.1 [] (some "example.com") none
    { protocol := "http:", hostname := "example.com", port := none, pathname := "" }
    (by decide) (by decide) (by decide)


/-- C8 counterexample: equal-priority resolvers do NOT keep their
insertion order. Adding resolvers 1 and 2 (both priority 0, in that
order) to the initial chain produces the chain `[2, 1, 0]`: resolver 2
precedes resolver 1, the reverse of their insertion order, because
`_.sortBy(..).reverse()` reverses equal-priority runs of the stable sort. -/
theorem claim8_counterexample :
    addResolver [defaultResolverEntry] [{ id := 1 }, { id := 2 }] =
      [{ id := 2, priority := 0 }, { id := 1, priority := 0 }, { id := 0, priority := 0 }] ∧
    (addResolver [defaultResolverEntry] [{ id := 1 }, { id := 2 }]).indexOf
        { id := 2, priority := 0 } <
      (addResolver [defaultResolverEntry] [{ id := 1 }, { id := 2 }]).indexOf
        { id := 1, priority := 0 } ∧
    ¬ List.Sublist [({ id := 1, priority := 0 } : ResolverEntry), { id := 2, priority := 0 }]
        (addResolver [defaultResolverEntry] [{ id := 1 }, { id := 2 }]) := by
  refine ⟨by decide, by decide, by decide⟩

/-- C8 amended: after an `addResolver` call, entries of equal priority
appear in the REVERSE of their relative order in the pushed (pre-sort)
list — in particular, two equal-priority resolvers added in one call end
up with the later-inserted one first. -/
theorem claim8_equal_priority_reversed :
    ∀ (chain : List ResolverEntry) (new : List ResolverInput) (a b : ResolverEntry),
      a.priority = b.priority →
      List.Sublist [a, b] (uniqById (chain ++ new.map normalizeResolver)) →
      List.Sublist [b, a] (addResolver chain new) := by
  intro chain new a b hp hsub
  unfold addResolver
  have h1 : List.Sublist [a, b]
      (List.insertionSort prioRel (uniqById (chain ++ new.map normalizeResolver))) :=
    List.pair_sublist_insertionSort (le_of_eq hp) hsub
  simpa using h1.reverse

/-- Witness for the amended C8 at a concrete input: resolvers 1 and 2 of
equal priority, pushed in that order, appear as `[2, 1]` in the chain. -/
theorem claim8_witness :
    List.Sublist [({ id := 2, priority := 0 } : ResolverEntry), { id := 1, priority := 0 }]
      (addResolver [defaultResolverEntry] [{ id := 1 }, { id := 2 }]) :=
  claim8_equal_priority_reversed [defaultResolverEntry] [{ id := 1 }, { id := 2 }]
    { id := 1, priority := 0 } { id := 2, priority := 0 } rfl (by decide)


/-- A native-shaped route for `/x` as a high-priority custom resolver
would return it. -/
def customRoute : JsRoute := { path := some "/x", urls := some [tgtA] }

/-- The routing table's own route for `/x`. -/
def tableRoute : JsRoute := { path := some "/x", urls := some [tgtB] }

/-- C5: the resolver chain is kept sorted by descending priority, and the
result loop of `resolve` walks the results in that order, skipping empty
and unaccepted results and returning the first accepted one; concretely,
with a priority-10 custom resolver ahead of the built-in one, the chain
is `[custom, builtin]` and the custom resolver's `/x` route is returned
in preference to the table's matching `/x` route. -/
theorem claim5_priority_first_accepted :
    (∀ (chain : List ResolverEntry) (new : List ResolverInput),
        (addResolver chain new).Pairwise (fun a b => b.priority ≤ a.priority)) ∧
    (∀ (url : String) (v : RouteVal) (rest : List (Option RouteVal)) (st st' : Store)
        (br : BRoute),
        buildRoute v st = (.ok (some br), st') → acceptRoute url (br.look st') = true →
        resolveIter url (some v :: rest) st = (some br, st')) ∧
    (∀ (url : String) (rest : List (Option RouteVal)) (st : Store),
        resolveIter url (none :: rest) st = resolveIter url rest st) ∧
    (∀ (url : String) (v : RouteVal) (rest : List (Option RouteVal)) (st st' : Store)
        (br : BRoute),
        buildRoute v st = (.ok (some br), st') → acceptRoute url (br.look st') = false →
        resolveIter url (some v :: rest) st = resolveIter url rest st') ∧
    (addResolver [defaultResolverEntry] [{ id := 1, priority := some 10 }] =
        [{ id := 1, priority := 10 }, { id := 0, priority := 0 }] ∧
     resolveResults "/x" [.ok (some (.obj customRoute)), .ok (some (.obj tableRoute))] {} =
        (some (.native customRoute), {}) ∧
     resolveResults "/x" [.ok (some (.obj tableRoute)), .ok (some (.obj customRoute))] {} =
        (some (.native tableRoute), {})) := by
  refine ⟨?_, ?_, ?_, ?_, by decide, by decide, by decide⟩
  · intro chain new
    have hs : (List.insertionSort prioRel
        (uniqById (chain ++ new.map normalizeResolver))).Pairwise prioRel :=
      List.sorted_insertionSort prioRel _
    unfold addResolver
    rw [List.pairwise_reverse]
    exact hs
  · intro url v rest st st' br hbuild haccept
    unfold resolveIter
    simp only [hbuild, haccept, if_true]
  · intro url rest st
    rfl
  · intro url v rest st st' br hbuild haccept
    unfold resolveIter
    simp only [hbuild, haccept, Bool.false_eq_true, if_false]
    rw [resolveIter.eq_def]

/-- Witness for C5 at a concrete input: an accepted head result is
returned immediately. -/
theorem claim5_witness :
    resolveIter "/x" [some (.obj customRoute)] {} = (some (.native customRoute), {}) :=
  claim5_priority_first_accepted.2.1 "/x" (.obj customRoute) [] {} {}
    (.native customRoute) (by decide) (by decide)


/-- C1 amended: when any resolver's promise rejects, the rejection is
caught (by the `catch` after the `Promise.all` join) and the WHOLE
resolution yields no route with the cache untouched — the other
resolvers' results are discarded, not iterated. -/
theorem claim1_rejection_aborts_resolution :
    ∀ (url : String) (results : List (Except Unit (Option RouteVal))) (st : Store),
      results.any isErrResult = true →
      resolveResults url results st = (none, st) := by
  intro url results st h
  unfold resolveResults
  simp only [h, if_true]

/-- C1 counterexample: with resolver 1 rejecting and resolver 2 returning
a route that matches `/x` (and is accepted when alone), `resolve` returns
no route — the matching result of the other resolver is NOT returned,
contradicting the claim that a failure contributes a "no result" for the
failing resolver only. -/
theorem claim1_counterexample :
    resolveResults "/x" [.error (), .ok (some (.obj tableRoute))] emptyStore =
      (none, emptyStore) ∧
    resolveResults "/x" [.ok (some (.obj tableRoute))] emptyStore =
      (some (.native tableRoute), emptyStore) ∧
    acceptRoute "/x" tableRoute = true := ⟨by decide, by decide, by decide⟩

/-- Witness for the amended C1 at a concrete input: a single rejected
resolver yields no route. -/
theorem claim1_witness :
    resolveResults "/" [.error ()] emptyStore = (none, emptyStore) :=
  claim1_rejection_aborts_resolution "/" [.error ()] emptyStore (by decide)


theorem cacheTouch_heap (st : Store) (k : CacheKey) : (cacheTouch st k).heap = st.heap := by
  unfold cacheTouch
  split <;> rfl

/-- A structured two-target descriptor, as a resolver would return it. -/
def rrDesc : RouteVal :=
  .obj { url := some (.many ["localhost:9001", "localhost:9002"]) }

/-- The normalized target for `localhost:9001`. -/
def tgt9001 : Target :=
  { protocol := "http:", hostname := "localhost", port := some "9001", pathname := "",
    useTargetHostHeader := false }

/-- The normalized target for `localhost:9002`. -/
def tgt9002 : Target :=
  { protocol := "http:", hostname := "localhost", port := some "9002", pathname := "",
    useTargetHostHeader := false }

/-- C9: while a non-native descriptor's key is in the cache, `buildRoute`
returns the cached route object (same heap reference) without building
anything new; concretely, resolving the same two-target structured
descriptor twice returns the same object both times, so round-robin
selection yields `9001` after the first resolution and `9002` after the
second (the rotation continues instead of resetting), and a repeated
string descriptor likewise reuses its cached object. -/
theorem claim9_descriptor_cache_reuse :
    (∀ (v : RouteVal) (key : CacheKey) (ref : Nat) (st : Store),
        cacheKeyOf v = some key → cacheGet st key = some ref →
        buildRoute v st = (.ok (some (.cached ref)), cacheTouch st key) ∧
        (cacheTouch st key).heap = st.heap) ∧
    ((buildRoute rrDesc emptyStore).1 = .ok (some (.cached 0)) ∧
     (let st1 := (buildRoute rrDesc emptyStore).2
      (storeSelect st1 0).1 = some tgt9001 ∧
      (let st2 := (storeSelect st1 0).2
       (buildRoute rrDesc st2).1 = .ok (some (.cached 0)) ∧
       (buildRoute rrDesc st2).2.heap = st2.heap ∧
       (storeSelect (buildRoute rrDesc st2).2 0).1 = some tgt9002)) ∧
     (let su1 := (buildRoute (.str "localhost:9003") emptyStore).2
      (buildRoute (.str "localhost:9003") su1).1 = .ok (some (.cached 0)) ∧
      (buildRoute (.str "localhost:9003") su1).2.heap = su1.heap)) := by
  refine ⟨?_, by decide, ⟨by decide, by decide, by decide, by decide⟩, by decide, by decide⟩
  intro v key ref st hkey hget
  cases v with
  | other => simp [cacheKeyOf] at hkey
  | str s =>
    simp only [cacheKeyOf, Option.some.injEq] at hkey
    subst hkey
    refine ⟨?_, cacheTouch_heap st _⟩
    unfold buildRoute
    simp only [hget]
  | obj o =>
    simp only [cacheKeyOf] at hkey
    split at hkey
    · exact absurd hkey (by simp)
    · simp only [Option.some.injEq] at hkey
      subst hkey
      refine ⟨?_, cacheTouch_heap st _⟩
      unfold buildRoute
      rename_i hnat
      simp only [hnat, Bool.false_eq_true, if_false, hget]

/-- Witness for C9 at a concrete input: a cache hit returns the stored
reference and leaves the heap untouched. -/
theorem claim9_witness :
    buildRoute (.str "s") { heap := [], cache := [(CacheKey.strKey "s", 5)] } =
      (.ok (some (.cached 5)),
        cacheTouch { heap := [], cache := [(CacheKey.strKey "s", 5)] } (.strKey "s")) ∧
    (cacheTouch { heap := [], cache := [(CacheKey.strKey "s", 5)] } (.strKey "s")).heap =
      [] :=
  claim9_descriptor_cache_reuse.1 (.str "s") (.strKey "s") 5
    { heap := [], cache := [(CacheKey.strKey "s", 5)] } rfl (by decide)


/-- A native-shaped route for `/api` as a custom resolver could return it
(no `isResolved` flag). -/
def foreignRoute : JsRoute := { path := some "/api", urls := some [tgtA] }

/-- C10: any resolver-returned object owning both `urls` and `path` passes
through `buildRoute` unchanged and uncached, and, lacking the
`isResolved` flag, is accepted by `resolve` without the prefix-boundary
check — concretely, a route with path `/api` is returned for the request
path `/other` even though `/api` does not match `/other`. -/
theorem claim10_native_route_bypass :
    (∀ (o : JsRoute) (st : Store), o.urls.isSome = true → o.path.isSome = true →
        buildRoute (.obj o) st = (.ok (some (.native o)), st)) ∧
    (∀ (url : String) (o : JsRoute) (rest : List (Option RouteVal)) (st : Store),
        o.urls.isSome = true → o.path.isSome = true → o.isResolved = false →
        resolveIter url (some (.obj o) :: rest) st = (some (.native o), st)) ∧
    (jsStartsWith "/other" "/api" = false ∧
     resolveResults "/other" [.ok (some (.obj foreignRoute))] emptyStore =
        (some (.native foreignRoute), emptyStore)) := by
  have ha : ∀ (o : JsRoute) (st : Store), o.urls.isSome = true → o.path.isSome = true →
      buildRoute (.obj o) st = (.ok (some (.native o)), st) := by
    intro o st hu hp
    unfold buildRoute
    simp [hu, hp]
  refine ⟨ha, ?_, by decide, by decide⟩
  intro url o rest st hu hp hr
  unfold resolveIter
  simp only [ha o st hu hp]
  have hacc : acceptRoute url ((BRoute.native o).look st) = true := by
    simp [BRoute.look, acceptRoute, hr]
  simp only [hacc, if_true]

/-- Witness for C10 at a concrete input: the `/api` native route is
accepted for the non-matching request path `/other`. -/
theorem claim10_witness :
    resolveIter "/other" [some (.obj foreignRoute)] emptyStore =
      (some (.native foreignRoute), emptyStore) :=
  claim10_native_route_bypass.2.1 "/other" foreignRoute [] emptyStore rfl rfl rfl

end Redbird
